import Mathlib

/-!
Shallow embedding of the arbitrage-optimizer core of the
solana-arbitrage-bot repository (`src/optimizer.py`, `src/market_data.py`).

Python `Decimal` quantities are modelled as exact rationals (`ℚ`); Python
strings are modelled as Lean `String`, with the character-level operations
the source uses (`in`, `split`, `lower`) given explicit structural models
over `String.data`.  Python dicts appearing as inputs are modelled as
association lists, and generic route dicts as records carrying exactly the
keys the source writes.  Fallible code (the `ValueError` that
`token_a, token_b = symbol.split('/')` can raise) is modelled with
`Except`.  The floating-point confidence heuristic
(`_calculate_confidence`) is not modelled; no claim refers to it.
-/

namespace SolanaArb

/-- Quote record (`PriceData` in `market_data.py`); the float timestamp is
not modelled (no claim refers to it). -/
structure PriceData where
  symbol : String
  price : ℚ
  volume_24h : ℚ
  liquidity : ℚ
  source : String
deriving DecidableEq, Inhabited

/-- Liquidity-pool record (`PoolInfo` in `optimizer.py`). -/
structure PoolInfo where
  dex : String
  token_a : String
  token_b : String
  reserve_a : ℚ
  reserve_b : ℚ
  fee : ℚ
  liquidity : ℚ
deriving DecidableEq

/-- Route dict built by the optimizer (`'pair'/'amount'/'profit'/...` keys);
`confidence`, a float in the source, is carried as a rational stand-in. -/
structure RouteDict where
  pair : String
  amount : ℚ
  profit : ℚ
  confidence : ℚ
  path : List String
  gas_estimate : ℚ
  route_type : String
deriving DecidableEq

/-- Entry of the `get_price_differences` report (`market_data.py`). -/
structure DiffEntry where
  symbol : String
  lowest_price : ℚ
  highest_price : ℚ
  difference : ℚ
  percentage : ℚ
  buy_from : String
  sell_to : String
  liquidity : ℚ
deriving DecidableEq

/-- `ArbitrageOptimizer.min_profit_threshold = Decimal('10.0')`. -/
def min_profit_threshold : ℚ := 10

/-- `ArbitrageOptimizer.max_slippage = Decimal('0.02')`. -/
def max_slippage : ℚ := 2 / 100

/-- `ArbitrageOptimizer.gas_price_estimate = Decimal('0.01')`. -/
def gas_price_estimate : ℚ := 1 / 100

/-- Python `c in s` for a single character. -/
def strContainsChar (s : String) (c : Char) : Bool :=
  s.data.any (fun x => x == c)

/-- Python `str.split(sep)` with a one-character separator, on character
lists: splits at every occurrence of the separator, keeping empty pieces. -/
def splitCharList (c : Char) : List Char → List (List Char)
  | [] => [[]]
  | x :: xs =>
    if x == c then
      [] :: splitCharList c xs
    else
      match splitCharList c xs with
      | [] => [[x]]
      | s :: ss => (x :: s) :: ss

/-- Python `symbol.split('/')`. -/
def splitSlash (s : String) : List String :=
  (splitCharList '/' s.data).map String.mk

/-- Python `str.lower()` (character-wise lowering, adequate for the ASCII
venue names the source handles). -/
def strLower (s : String) : String :=
  String.mk (s.data.map Char.toLower)

/-- Synthetic pool built from one quote: the body of the
`_convert_to_pools` loop (`optimizer.py` lines 78-95). -/
def pool_of_quote (token_a token_b : String) (price_data : PriceData) : PoolInfo :=
  { dex := strLower price_data.source
    token_a := token_a
    token_b := token_b
    reserve_a := price_data.liquidity / (2 * price_data.price)
    reserve_b := price_data.liquidity / 2
    fee := 3 / 1000
    liquidity := price_data.liquidity }

/-- Handling of a single quote inside `_convert_to_pools`: symbols without
a `/` are skipped; `Except.error` models the `ValueError` Python raises
when `token_a, token_b = symbol.split('/')` unpacks a list whose length is
not two. -/
def pool_step (symbol : String) (price_data : PriceData) : Except String (List PoolInfo) :=
  if strContainsChar symbol '/' then
    match splitSlash symbol with
    | [token_a, token_b] => Except.ok [pool_of_quote token_a token_b price_data]
    | _ => Except.error "ValueError: too many values to unpack"
  else
    Except.ok []

/-- Pools contributed by one symbol's quote list in `_convert_to_pools`. -/
def pools_of_symbol (symbol : String) (price_list : List PriceData) : Except String (List PoolInfo) :=
  match price_list with
  | [] => Except.ok []
  | q :: rest => do
    let ps ← pool_step symbol q
    let rest' ← pools_of_symbol symbol rest
    pure (ps ++ rest')

/-- `_convert_to_pools` over the whole market-data snapshot (an association
list standing for the Python dict). -/
def convert_to_pools (market_data : List (String × List PriceData)) : Except String (List PoolInfo) :=
  match market_data with
  | [] => Except.ok []
  | (symbol, price_list) :: rest => do
    let ps ← pools_of_symbol symbol price_list
    let rest' ← convert_to_pools rest
    pure (ps ++ rest')

/-- `_calculate_swap_output`: constant-product swap output with fee
(`optimizer.py` lines 280-297). -/
def calculate_swap_output (input_amount : ℚ) (pool : PoolInfo) (a_to_b : Bool) : ℚ :=
  let input_reserve := if a_to_b then pool.reserve_a else pool.reserve_b
  let output_reserve := if a_to_b then pool.reserve_b else pool.reserve_a
  let input_amount_with_fee := input_amount * (1 - pool.fee)
  (input_amount_with_fee * output_reserve) / (input_reserve + input_amount_with_fee)

/-- `_calculate_optimal_direct_amount` (`optimizer.py` lines 299-309). -/
def calculate_optimal_direct_amount (low_price_data high_price_data : PriceData) : ℚ :=
  let max_amount_low := low_price_data.liquidity / (4 * low_price_data.price)
  let max_amount_high := high_price_data.liquidity / (4 * high_price_data.price)
  let optimal_amount := min max_amount_low max_amount_high
  max optimal_amount 100

/-- `_filter_profitable_routes`: strict minimum-profit filter, stable sort
descending by profit, truncation to the top 10 (`optimizer.py` 336-345). -/
def filter_profitable_routes (routes : List RouteDict) : List RouteDict :=
  ((routes.filter (fun r => decide (min_profit_threshold < r.profit))).mergeSort
      (fun a b => decide (b.profit ≤ a.profit))).take 10

/-- Python `sorted(price_list, key=lambda x: x.price)` (stable). -/
def sorted_by_price (price_list : List PriceData) : List PriceData :=
  price_list.mergeSort (fun a b => decide (a.price ≤ b.price))

/-- The quote `sorted_prices[0]` of `get_price_differences`. -/
def lowest_quote (price_list : List PriceData) : PriceData :=
  (sorted_by_price price_list).headI

/-- The quote `sorted_prices[-1]` of `get_price_differences`. -/
def highest_quote (price_list : List PriceData) : PriceData :=
  (sorted_by_price price_list).getLastI

/-- The percentage delta `(price_diff / lowest.price) * 100` of
`get_price_differences`. -/
def percentage_delta (price_list : List PriceData) : ℚ :=
  ((highest_quote price_list).price - (lowest_quote price_list).price) /
    (lowest_quote price_list).price * 100

/-- The report entry `get_price_differences` builds for one symbol, `none`
when the symbol has fewer than two quotes or its delta is at most 0.1%. -/
def price_diff_entry (symbol : String) (price_list : List PriceData) : Option DiffEntry :=
  if 2 ≤ price_list.length then
    if 1 / 10 < percentage_delta price_list then
      some { symbol := symbol
             lowest_price := (lowest_quote price_list).price
             highest_price := (highest_quote price_list).price
             difference := (highest_quote price_list).price - (lowest_quote price_list).price
             percentage := percentage_delta price_list
             buy_from := (lowest_quote price_list).source
             sell_to := (highest_quote price_list).source
             liquidity := min (lowest_quote price_list).liquidity (highest_quote price_list).liquidity }
    else none
  else none

/-- `MarketDataProvider.get_price_differences` (`market_data.py` 171-200)
over a snapshot (association list standing for the `all_prices` dict). -/
def get_price_differences (all_prices : List (String × List PriceData)) : List DiffEntry :=
  (all_prices.filterMap (fun p => price_diff_entry p.1 p.2)).mergeSort
    (fun a b => decide (b.percentage ≤ a.percentage))

/-- Matching test of `_find_best_pool` and `_path_exists`: the pool trades
exactly the unordered pair of the two tokens. -/
def pool_matches (from_token to_token : String) (p : PoolInfo) : Bool :=
  (p.token_a == from_token && p.token_b == to_token) ||
    (p.token_a == to_token && p.token_b == from_token)

/-- Exchange rate `_find_best_pool` assigns to a matching pool. -/
def pool_rate (from_token : String) (p : PoolInfo) : ℚ :=
  if p.token_a == from_token then p.reserve_b / p.reserve_a else p.reserve_a / p.reserve_b

/-- `_find_best_pool` (`optimizer.py` 259-278): keeps the first matching
pool of strictly maximal rate, starting from `best_rate = 0`. -/
def find_best_pool (from_token to_token : String) (pools : List PoolInfo) : Option PoolInfo :=
  (pools.foldl
    (fun best p =>
      if pool_matches from_token to_token p ∧ best.2 < pool_rate from_token p then
        (some p, pool_rate from_token p)
      else best)
    ((none : Option PoolInfo), (0 : ℚ))).1

/-- The `token_pools` grouping of `_find_triangular_arbitrage` (lines
106-111): the pools listed under a token are those containing it. -/
def token_pools_for (pools : List PoolInfo) (token : String) : List PoolInfo :=
  pools.filter (fun p => p.token_a == token || p.token_b == token)

/-- `_path_exists` (`optimizer.py` 161-167). -/
def path_exists (token_a token_b : String) (pools : List PoolInfo) : Bool :=
  (token_pools_for pools token_a).any
    (fun p => (p.token_a == token_a && p.token_b == token_b) ||
      (p.token_a == token_b && p.token_b == token_a))

/-- The `connected_tokens` set of `_find_triangular_paths` (lines 144-147),
modelled as a deduplicated list (the Python `set` is used only through
membership). -/
def connected_tokens (base_token : String) (pools : List PoolInfo) : List String :=
  ((token_pools_for pools base_token).map
    (fun p => if p.token_a == base_token then p.token_b else p.token_a)).dedup

/-- `_find_triangular_paths` (`optimizer.py` 139-159). -/
def find_triangular_paths (base_token : String) (pools : List PoolInfo) : List (List String) :=
  (connected_tokens base_token pools).flatMap (fun token1 =>
    (connected_tokens base_token pools).filterMap (fun token2 =>
      if token1 ≠ token2 ∧ path_exists token1 token2 pools ∧ path_exists token2 base_token pools then
        some [base_token, token1, token2, base_token]
      else none))

/-- A pool of the pool set trades the unordered pair `{x, y}`. -/
def pools_connect (pools : List PoolInfo) (x y : String) : Prop :=
  ∃ p ∈ pools, (p.token_a = x ∧ p.token_b = y) ∨ (p.token_a = y ∧ p.token_b = x)

/-- Inner loop of `_analyze_triangular_profit` (lines 182-198): walks the
path hop by hop, returning the final amount and the accumulated gas cost;
a hop without a tradable pool yields `(0, gas so far)`, modelling
`current_amount = Decimal('0'); break`. -/
def simulate_hops (pools : List PoolInfo) : List String → ℚ → ℚ → ℚ × ℚ
  | from_token :: to_token :: rest, current_amount, gas_cost =>
    match find_best_pool from_token to_token pools with
    | none => (0, gas_cost)
    | some best_pool =>
        simulate_hops pools (to_token :: rest)
          (calculate_swap_output current_amount best_pool (from_token == best_pool.token_a))
          (gas_cost + gas_price_estimate)
  | _, current_amount, gas_cost => (current_amount, gas_cost)

/-- Net profit of one candidate amount:
`net_profit = current_amount - amount - gas_cost` (line 201). -/
def candidate_net_profit (path : List String) (pools : List PoolInfo) (amount : ℚ) : ℚ :=
  (simulate_hops pools path amount 0).1 - amount - (simulate_hops pools path amount 0).2

/-- The candidate sweep `test_amounts` (line 173). -/
def test_amounts : List ℚ := [100, 1000, 10000, 100000]

/-- Result record of `_analyze_triangular_profit`; the float confidence
field is not modelled. -/
structure ProfitAnalysis where
  optimal_amount : ℚ
  gross_profit : ℚ
  net_profit : ℚ
  gas_cost : ℚ
deriving DecidableEq

/-- One step of the best-candidate selection (lines 203-205): update when
the candidate's net profit strictly exceeds the best so far. -/
def analyze_step (path : List String) (pools : List PoolInfo) (best : ℚ × ℚ) (amount : ℚ) : ℚ × ℚ :=
  if best.1 < candidate_net_profit path pools amount then
    (candidate_net_profit path pools amount, amount)
  else best

/-- `_analyze_triangular_profit` (`optimizer.py` 169-216), with
`best_profit = 0` and `best_amount = 1000` as initial values. -/
def analyze_triangular_profit (path : List String) (pools : List PoolInfo) : ProfitAnalysis :=
  let best := test_amounts.foldl (analyze_step path pools) ((0 : ℚ), (1000 : ℚ))
  { optimal_amount := best.2
    gross_profit := best.1 + ((path.length : ℚ) - 1) * gas_price_estimate
    net_profit := best.1
    gas_cost := ((path.length : ℚ) - 1) * gas_price_estimate }

/-- Every hop of the path has a tradable pool (`_find_best_pool` succeeds
on each consecutive token pair). -/
def hops_tradable (pools : List PoolInfo) : List String → Prop
  | from_token :: to_token :: rest =>
      find_best_pool from_token to_token pools ≠ none ∧ hops_tradable pools (to_token :: rest)
  | _ => True

/-- C1: for a swap with reserves `reserve_in > 0`, `reserve_out > 0` and
fee rate in `[0, 1)`, the output of `_calculate_swap_output` equals
`input * (1 - fee) * reserve_out / (reserve_in + input * (1 - fee))`, is
strictly below `reserve_out` for every positive input, and is strictly
increasing in the input amount over nonnegative inputs. -/
theorem calculate_swap_output_spec (pool : PoolInfo) (a_to_b : Bool)
    (hin : 0 < (if a_to_b then pool.reserve_a else pool.reserve_b))
    (hout : 0 < (if a_to_b then pool.reserve_b else pool.reserve_a))
    (hfee0 : 0 ≤ pool.fee) (hfee1 : pool.fee < 1) :
    (∀ x : ℚ, calculate_swap_output x pool a_to_b =
      x * (1 - pool.fee) * (if a_to_b then pool.reserve_b else pool.reserve_a) /
        ((if a_to_b then pool.reserve_a else pool.reserve_b) + x * (1 - pool.fee))) ∧
    (∀ x : ℚ, 0 < x →
      calculate_swap_output x pool a_to_b < (if a_to_b then pool.reserve_b else pool.reserve_a)) ∧
    (∀ x y : ℚ, 0 ≤ x → x < y →
      calculate_swap_output x pool a_to_b < calculate_swap_output y pool a_to_b) := by
  set rin := if a_to_b then pool.reserve_a else pool.reserve_b with hrin
  set rout := if a_to_b then pool.reserve_b else pool.reserve_a with hrout
  have hc : 0 < 1 - pool.fee := by linarith
  have hformula : ∀ x : ℚ,
      calculate_swap_output x pool a_to_b = x * (1 - pool.fee) * rout / (rin + x * (1 - pool.fee)) :=
    fun x => rfl
  refine ⟨hformula, fun x hx => ?_, fun x y hx hxy => ?_⟩
  · rw [hformula]
    rw [div_lt_iff₀ (by nlinarith)]
    nlinarith [mul_pos hin hout]
  · rw [hformula, hformula]
    have hdx : 0 < rin + x * (1 - pool.fee) := by nlinarith
    have hdy : 0 < rin + y * (1 - pool.fee) := by nlinarith
    rw [div_lt_div_iff₀ hdx hdy]
    nlinarith [mul_pos (mul_pos hc hout) (mul_pos hin (sub_pos.mpr hxy))]

/-- C1 witness: the bound and the monotonicity at the pool with reserves
10 and 20, fee 0.003, inputs 1 and 2. -/
theorem calculate_swap_output_spec_witness :
    calculate_swap_output 1 ⟨"orca", "SOL", "USDC", 10, 20, 3 / 1000, 100⟩ true < 20 ∧
    calculate_swap_output 1 ⟨"orca", "SOL", "USDC", 10, 20, 3 / 1000, 100⟩ true <
      calculate_swap_output 2 ⟨"orca", "SOL", "USDC", 10, 20, 3 / 1000, 100⟩ true := by
  obtain ⟨-, h2, h3⟩ := calculate_swap_output_spec ⟨"orca", "SOL", "USDC", 10, 20, 3 / 1000, 100⟩
    true (by norm_num) (by norm_num) (by norm_num) (by norm_num)
  exact ⟨h2 1 (by norm_num), h3 1 2 (by norm_num) (by norm_num)⟩

/-- C2 counterexample: the quote with price 1 and liquidity 0 satisfies
price > 0 and liquidity ≥ 0, yet the derived pool has `reserve_a = 0`,
refuting `reserve_a > 0`. -/
theorem pool_of_quote_zero_liquidity :
    0 < (⟨"SOL/USDC", 1, 0, 0, "Orca"⟩ : PriceData).price ∧
    0 ≤ (⟨"SOL/USDC", 1, 0, 0, "Orca"⟩ : PriceData).liquidity ∧
    ¬ 0 < (pool_of_quote "SOL" "USDC" ⟨"SOL/USDC", 1, 0, 0, "Orca"⟩).reserve_a := by
  refine ⟨by norm_num, le_refl 0, ?_⟩
  norm_num [pool_of_quote]

/-- C2 (amended): for a quote with price > 0 and liquidity ≥ 0 the derived
pool has `reserve_b = liquidity / 2` and `reserve_a = liquidity / (2 * price)`,
both nonnegative, and `reserve_a > 0` whenever liquidity > 0. -/
theorem pool_of_quote_spec (token_a token_b : String) (q : PriceData)
    (hprice : 0 < q.price) (hliq : 0 ≤ q.liquidity) :
    (pool_of_quote token_a token_b q).reserve_b = q.liquidity / 2 ∧
    (pool_of_quote token_a token_b q).reserve_a = q.liquidity / (2 * q.price) ∧
    0 ≤ (pool_of_quote token_a token_b q).reserve_a ∧
    0 ≤ (pool_of_quote token_a token_b q).reserve_b ∧
    (0 < q.liquidity → 0 < (pool_of_quote token_a token_b q).reserve_a) := by
  refine ⟨rfl, rfl, ?_, ?_, ?_⟩
  · exact div_nonneg hliq (by linarith)
  · exact div_nonneg hliq (by norm_num)
  · intro h
    exact div_pos h (by linarith)

/-- C2 witness: positive reserve at the quote with price 2, liquidity 8. -/
theorem pool_of_quote_spec_witness :
    0 < (pool_of_quote "SOL" "USDC" ⟨"SOL/USDC", 2, 0, 8, "Orca"⟩).reserve_a :=
  (pool_of_quote_spec "SOL" "USDC" ⟨"SOL/USDC", 2, 0, 8, "Orca"⟩
    (by norm_num) (by norm_num)).2.2.2.2 (by norm_num)

/-- C4 counterexample: with both venues quoting price 1 and liquidity 4,
the bound `liquidity / 4 / price` is 1, but the floor at 100 makes the
returned amount 100, so the amount exceeds the bound. -/
theorem calculate_optimal_direct_amount_floor_exceeds :
    calculate_optimal_direct_amount ⟨"A/B", 1, 0, 4, "X"⟩ ⟨"A/B", 1, 0, 4, "Y"⟩ = 100 ∧
    ¬ calculate_optimal_direct_amount ⟨"A/B", 1, 0, 4, "X"⟩ ⟨"A/B", 1, 0, 4, "Y"⟩ ≤
      (⟨"A/B", 1, 0, 4, "X"⟩ : PriceData).liquidity / 4 / (⟨"A/B", 1, 0, 4, "X"⟩ : PriceData).price := by
  constructor <;> norm_num [calculate_optimal_direct_amount]

/-- C4 (amended): the direct-route amount equals
`max (min (low.liquidity / (4 * low.price)) (high.liquidity / (4 * high.price))) 100`,
and whenever that minimum is at least the 100-unit floor the returned
amount exceeds neither venue's `liquidity / 4 / price`. -/
theorem calculate_optimal_direct_amount_spec (low_price_data high_price_data : PriceData) :
    calculate_optimal_direct_amount low_price_data high_price_data =
      max (min (low_price_data.liquidity / (4 * low_price_data.price))
        (high_price_data.liquidity / (4 * high_price_data.price))) 100 ∧
    (100 ≤ min (low_price_data.liquidity / (4 * low_price_data.price))
        (high_price_data.liquidity / (4 * high_price_data.price)) →
      calculate_optimal_direct_amount low_price_data high_price_data ≤
        low_price_data.liquidity / 4 / low_price_data.price ∧
      calculate_optimal_direct_amount low_price_data high_price_data ≤
        high_price_data.liquidity / 4 / high_price_data.price) := by
  refine ⟨rfl, fun h => ?_⟩
  have hmax : calculate_optimal_direct_amount low_price_data high_price_data =
      min (low_price_data.liquidity / (4 * low_price_data.price))
        (high_price_data.liquidity / (4 * high_price_data.price)) := max_eq_left h
  rw [hmax, div_div, div_div]
  exact ⟨min_le_left _ _, min_le_right _ _⟩

/-- C4 witness: with liquidity 4000 and price 1 on both sides, the amount
1000 respects both liquidity bounds. -/
theorem calculate_optimal_direct_amount_spec_witness :
    calculate_optimal_direct_amount ⟨"A/B", 1, 0, 4000, "X"⟩ ⟨"A/B", 1, 0, 4000, "Y"⟩ ≤
      (⟨"A/B", 1, 0, 4000, "X"⟩ : PriceData).liquidity / 4 / (⟨"A/B", 1, 0, 4000, "X"⟩ : PriceData).price :=
  ((calculate_optimal_direct_amount_spec ⟨"A/B", 1, 0, 4000, "X"⟩ ⟨"A/B", 1, 0, 4000, "Y"⟩).2
    (by norm_num)).1

/-- C9 (amended): a quote whose symbol contains no slash is skipped (no
pool and no error); a quote whose symbol contains a slash and splits into
exactly two parts produces exactly one pool per quote.  (A symbol
splitting into more than two parts instead raises an unpacking error, see
the counterexample.) -/
theorem pools_of_symbol_spec (symbol : String) (price_list : List PriceData) :
    (strContainsChar symbol '/' = false → pools_of_symbol symbol price_list = Except.ok []) ∧
    (∀ token_a token_b : String, strContainsChar symbol '/' = true →
      splitSlash symbol = [token_a, token_b] →
      pools_of_symbol symbol price_list =
        Except.ok (price_list.map (pool_of_quote token_a token_b))) := by
  constructor
  · intro h
    induction price_list with
    | nil => rfl
    | cons q rest ih =>
      simp only [pools_of_symbol, pool_step, h, Bool.false_eq_true, if_false, ih]
      rfl
  · intro token_a token_b hc hs
    induction price_list with
    | nil => rfl
    | cons q rest ih =>
      simp only [pools_of_symbol, pool_step, hc, if_true, hs, ih, List.map_cons]
      rfl

/-- C9 witness: the symbol SOL/USDC splits into two tokens and its single
quote yields exactly one pool. -/
theorem pools_of_symbol_spec_witness :
    pools_of_symbol "SOL/USDC" [⟨"SOL/USDC", 2, 0, 8, "Orca"⟩] =
      Except.ok [pool_of_quote "SOL" "USDC" ⟨"SOL/USDC", 2, 0, 8, "Orca"⟩] := by
  have h := (pools_of_symbol_spec "SOL/USDC" [⟨"SOL/USDC", 2, 0, 8, "Orca"⟩]).2 "SOL" "USDC"
    (by decide) (by decide)
  simpa using h

/-- C9 counterexample: the symbol A/B/C is not parseable into exactly two
token identifiers, yet the builder raises an unpacking error on its quote
instead of skipping it. -/
theorem pools_of_symbol_multislash_error :
    splitSlash "A/B/C" = ["A", "B", "C"] ∧
    pools_of_symbol "A/B/C" [⟨"A/B/C", 1, 0, 1, "X"⟩] =
      Except.error "ValueError: too many values to unpack" := by
  exact ⟨by decide, rfl⟩

/-- C7: evaluating `_convert_to_pools` at a quote with negative price
shows no ingestion validation exists: the invalid quote is not dropped,
and a synthetic pool with negative `reserve_a` is built from it. -/
theorem convert_to_pools_accepts_invalid_quote :
    (⟨"SOL/USDC", -1, 0, 100, "TEST"⟩ : PriceData).price ≤ 0 ∧
    convert_to_pools [("SOL/USDC", [⟨"SOL/USDC", -1, 0, 100, "TEST"⟩])] =
      Except.ok [pool_of_quote "SOL" "USDC" ⟨"SOL/USDC", -1, 0, 100, "TEST"⟩] ∧
    (pool_of_quote "SOL" "USDC" (⟨"SOL/USDC", -1, 0, 100, "TEST"⟩ : PriceData)).reserve_a = -50 := by
  refine ⟨by norm_num, rfl, by norm_num [pool_of_quote]⟩

/-- C3: the route ranking returns at most 10 entries, every returned entry
has profit strictly above the minimum-profit threshold, and entries are
sorted in descending order of profit. -/
theorem filter_profitable_routes_spec (routes : List RouteDict) :
    (filter_profitable_routes routes).length ≤ 10 ∧
    (∀ r ∈ filter_profitable_routes routes, min_profit_threshold < r.profit) ∧
    (filter_profitable_routes routes).Pairwise (fun a b => b.profit ≤ a.profit) := by
  refine ⟨?_, ?_, ?_⟩
  · simpa [filter_profitable_routes] using
      List.length_take_le 10
        ((routes.filter (fun r => decide (min_profit_threshold < r.profit))).mergeSort
          (fun a b => decide (b.profit ≤ a.profit)))
  · intro r hr
    have h1 := List.mem_of_mem_take hr
    have h2 := List.mem_mergeSort.mp h1
    have h3 := List.mem_filter.mp h2
    simpa using h3.2
  · have hsorted := @List.sorted_mergeSort RouteDict
      (fun a b : RouteDict => decide (b.profit ≤ a.profit))
      (fun a b c hab hbc => by
        simp only [decide_eq_true_eq] at *
        exact le_trans hbc hab)
      (fun a b => by
        simp only [Bool.or_eq_true, decide_eq_true_eq]
        exact le_total b.profit a.profit)
      (routes.filter (fun r => decide (min_profit_threshold < r.profit)))
    have hsorted' := hsorted.imp (fun h => of_decide_eq_true h)
    exact hsorted'.sublist (List.take_sublist 10 _)

/-- Route with profit 50, used by the C3 witness. -/
def sample_route : RouteDict :=
  ⟨"SOL/USDC", 1000, 50, 1 / 2, ["orca", "raydium"], 2 / 100, "direct"⟩

/-- Route with profit 5 (below threshold), used by the C3 witness. -/
def sample_route_low : RouteDict :=
  ⟨"RAY/SOL", 500, 5, 1 / 2, ["orca", "raydium"], 2 / 100, "direct"⟩

/-- C3 witness: ranking the two sample routes keeps the bound and the
threshold property at the surviving route. -/
theorem filter_profitable_routes_spec_witness :
    (filter_profitable_routes [sample_route, sample_route_low]).length ≤ 10 ∧
    min_profit_threshold < sample_route.profit := by
  obtain ⟨h1, h2, -⟩ := filter_profitable_routes_spec [sample_route, sample_route_low]
  refine ⟨h1, h2 sample_route ?_⟩
  norm_num [filter_profitable_routes, min_profit_threshold, sample_route, sample_route_low,
    List.mergeSort]

/-- A successful `_path_exists` scan yields a connecting pool in the pool
set. -/
theorem path_exists_connect {token_a token_b : String} {pools : List PoolInfo}
    (h : path_exists token_a token_b pools = true) :
    pools_connect pools token_a token_b := by
  simp only [path_exists, token_pools_for, List.any_eq_true, List.mem_filter] at h
  obtain ⟨p, ⟨hp, -⟩, hmatch⟩ := h
  refine ⟨p, hp, ?_⟩
  simp only [Bool.or_eq_true, Bool.and_eq_true, beq_iff_eq] at hmatch
  tauto

/-- Tokens listed as connected to the base token have a pool with it. -/
theorem connected_tokens_connect {base_token t : String} {pools : List PoolInfo}
    (h : t ∈ connected_tokens base_token pools) :
    pools_connect pools base_token t := by
  simp only [connected_tokens, List.mem_dedup, List.mem_map, token_pools_for,
    List.mem_filter] at h
  obtain ⟨p, ⟨hp, hor⟩, heq⟩ := h
  by_cases hab : p.token_a = base_token
  · refine ⟨p, hp, Or.inl ⟨hab, ?_⟩⟩
    simpa [hab] using heq
  · have hb : p.token_b = base_token := by
      simp only [Bool.or_eq_true, beq_iff_eq] at hor
      tauto
    refine ⟨p, hp, Or.inr ⟨?_, hb⟩⟩
    simpa [hab] using heq

/-- C6: every path emitted by `_find_triangular_paths` has the form
`[base, token1, token2, base]` with distinct intermediate tokens, and each
consecutive token pair has a connecting pool in the pool set. -/
theorem find_triangular_paths_spec (base_token : String) (pools : List PoolInfo)
    (path : List String) (hmem : path ∈ find_triangular_paths base_token pools) :
    ∃ token1 token2, path = [base_token, token1, token2, base_token] ∧ token1 ≠ token2 ∧
      pools_connect pools base_token token1 ∧ pools_connect pools token1 token2 ∧
      pools_connect pools token2 base_token := by
  simp only [find_triangular_paths, List.mem_flatMap, List.mem_filterMap] at hmem
  obtain ⟨token1, ht1, token2, ht2, hif⟩ := hmem
  by_cases hcond : token1 ≠ token2 ∧ path_exists token1 token2 pools ∧
      path_exists token2 base_token pools
  · rw [if_pos hcond] at hif
    obtain ⟨hne, hex12, hex2b⟩ := hcond
    exact ⟨token1, token2, (Option.some.inj hif).symm, hne,
      connected_tokens_connect ht1, path_exists_connect hex12, path_exists_connect hex2b⟩
  · rw [if_neg hcond] at hif
    exact absurd hif (Option.noConfusion)

/-- Pools forming a SOL-RAY-USDC triangle, used by the C6 witness. -/
def triangle_pools : List PoolInfo :=
  [⟨"orca", "SOL", "RAY", 1, 2, 0, 1⟩,
   ⟨"orca", "RAY", "USDC", 1, 2, 0, 1⟩,
   ⟨"orca", "USDC", "SOL", 1, 2, 0, 1⟩]

/-- C6 witness: the emitted SOL-RAY-USDC path is well-formed and each hop
is connected. -/
theorem find_triangular_paths_spec_witness :
    ∃ token1 token2,
      (["SOL", "RAY", "USDC", "SOL"] : List String) = ["SOL", token1, token2, "SOL"] ∧
      token1 ≠ token2 ∧
      pools_connect triangle_pools "SOL" token1 ∧
      pools_connect triangle_pools token1 token2 ∧
      pools_connect triangle_pools token2 "SOL" :=
  find_triangular_paths_spec "SOL" triangle_pools ["SOL", "RAY", "USDC", "SOL"] (by decide)

/-- Unfolding of one simulation step (structural, so definitional). -/
theorem simulate_hops_cons (pools : List PoolInfo) (from_token to_token : String)
    (rest : List String) (amount gas : ℚ) :
    simulate_hops pools (from_token :: to_token :: rest) amount gas =
      match find_best_pool from_token to_token pools with
      | none => (0, gas)
      | some best_pool =>
          simulate_hops pools (to_token :: rest)
            (calculate_swap_output amount best_pool (from_token == best_pool.token_a))
            (gas + gas_price_estimate) := rfl

/-- With a tradable pool at every hop, the simulation accumulates exactly
one gas charge per hop. -/
theorem simulate_hops_gas (pools : List PoolInfo) :
    ∀ (path : List String) (amount gas : ℚ), hops_tradable pools path →
      (simulate_hops pools path amount gas).2 =
        gas + ((path.length - 1 : ℕ) : ℚ) * gas_price_estimate
  | [], _, gas, _ => by simp [simulate_hops]
  | [_], _, gas, _ => by simp [simulate_hops]
  | f :: t :: rest, amount, gas, h => by
    obtain ⟨hsome, htail⟩ := h
    rcases hfind : find_best_pool f t pools with _ | p
    · exact absurd hfind hsome
    · rw [simulate_hops_cons, hfind]
      rw [simulate_hops_gas pools (t :: rest) _ _ htail]
      have hlen : ((f :: t :: rest).length - 1 : ℕ) = ((t :: rest).length - 1 : ℕ) + 1 := by
        simp
      rw [hlen]
      push_cast
      ring

/-- With a failing hop somewhere, the simulation ends at amount 0 without
refunding the gas already accumulated. -/
theorem simulate_hops_fail (pools : List PoolInfo) :
    ∀ (path : List String) (amount gas : ℚ), ¬ hops_tradable pools path →
      (simulate_hops pools path amount gas).1 = 0 ∧
        gas ≤ (simulate_hops pools path amount gas).2
  | [], _, _, h => absurd trivial h
  | [_], _, _, h => absurd trivial h
  | f :: t :: rest, amount, gas, h => by
    rcases hfind : find_best_pool f t pools with _ | p
    · rw [simulate_hops_cons, hfind]
      exact ⟨rfl, le_refl gas⟩
    · have htail : ¬ hops_tradable pools (t :: rest) := by
        intro ht
        exact h ⟨by rw [hfind]; exact Option.some_ne_none p, ht⟩
      rw [simulate_hops_cons, hfind]
      obtain ⟨h1, h2⟩ := simulate_hops_fail pools (t :: rest)
        (calculate_swap_output amount p (f == p.token_a)) (gas + gas_price_estimate) htail
      refine ⟨h1, le_trans ?_ h2⟩
      have : (0 : ℚ) ≤ gas_price_estimate := by norm_num [gas_price_estimate]
      linarith

/-- The best-profit component of the candidate sweep is the running
maximum of the candidate profits. -/
theorem analyze_fold_fst (path : List String) (pools : List PoolInfo) :
    ∀ (l : List ℚ) (init : ℚ × ℚ),
      (l.foldl (analyze_step path pools) init).1 =
        l.foldl (fun m x => max m (candidate_net_profit path pools x)) init.1
  | [], _ => rfl
  | x :: l, init => by
    rw [List.foldl_cons, List.foldl_cons]
    by_cases h : init.1 < candidate_net_profit path pools x
    · rw [show analyze_step path pools init x = (candidate_net_profit path pools x, x) by
        rw [analyze_step, if_pos h]]
      rw [analyze_fold_fst path pools l (candidate_net_profit path pools x, x)]
      rw [max_eq_right h.le]
    · rw [show analyze_step path pools init x = init by rw [analyze_step, if_neg h]]
      rw [analyze_fold_fst path pools l init, max_eq_left (not_lt.mp h)]

/-- The candidate sweep either never improves on its initial pair or ends
at some swept amount together with its profit, strictly above the initial
best profit. -/
theorem analyze_fold_snd (path : List String) (pools : List PoolInfo) :
    ∀ (l : List ℚ) (init : ℚ × ℚ),
      l.foldl (analyze_step path pools) init = init ∨
        ∃ x ∈ l, l.foldl (analyze_step path pools) init =
            (candidate_net_profit path pools x, x) ∧
          init.1 < candidate_net_profit path pools x
  | [], _ => Or.inl rfl
  | x :: l, init => by
    rw [List.foldl_cons]
    by_cases h : init.1 < candidate_net_profit path pools x
    · rw [show analyze_step path pools init x = (candidate_net_profit path pools x, x) by
        rw [analyze_step, if_pos h]]
      rcases analyze_fold_snd path pools l (candidate_net_profit path pools x, x) with
        h1 | ⟨y, hy, h2, h3⟩
      · exact Or.inr ⟨x, List.mem_cons_self x l, h1, h⟩
      · exact Or.inr ⟨y, List.mem_cons_of_mem x hy, h2, lt_trans h h3⟩
    · rw [show analyze_step path pools init x = init by rw [analyze_step, if_neg h]]
      rcases analyze_fold_snd path pools l init with h1 | ⟨y, hy, h2, h3⟩
      · exact Or.inl h1
      · exact Or.inr ⟨y, List.mem_cons_of_mem x hy, h2, h3⟩

/-- A fold of running maxima never drops below its initial value. -/
theorem foldl_max_le_init (f : ℚ → ℚ) :
    ∀ (l : List ℚ) (b : ℚ), b ≤ l.foldl (fun m x => max m (f x)) b
  | [], b => le_refl b
  | x :: l, b => le_trans (le_max_left b (f x)) (foldl_max_le_init f l (max b (f x)))

/-- A fold of running maxima dominates every listed value. -/
theorem le_foldl_max (f : ℚ → ℚ) :
    ∀ (l : List ℚ) (b y : ℚ), y ∈ l → f y ≤ l.foldl (fun m x => max m (f x)) b
  | [], _, y, hy => absurd hy (List.not_mem_nil y)
  | x :: l, b, y, hy => by
    rw [List.foldl_cons]
    rcases List.mem_cons.mp hy with rfl | hy'
    · exact le_trans (le_max_right b (f y)) (foldl_max_le_init f l _)
    · exact le_foldl_max f l _ y hy'

/-- C10: the reported best net profit is the maximum of zero and the
per-candidate net profits (hence never negative), and when no candidate
amount is strictly profitable the evaluator returns net profit 0 with the
default optimal amount 1000. -/
theorem analyze_triangular_profit_nonneg (path : List String) (pools : List PoolInfo) :
    (analyze_triangular_profit path pools).net_profit =
      test_amounts.foldl (fun m x => max m (candidate_net_profit path pools x)) 0 ∧
    0 ≤ (analyze_triangular_profit path pools).net_profit ∧
    ((∀ x ∈ test_amounts, candidate_net_profit path pools x ≤ 0) →
      (analyze_triangular_profit path pools).net_profit = 0 ∧
      (analyze_triangular_profit path pools).optimal_amount = 1000) := by
  have hfst : (analyze_triangular_profit path pools).net_profit =
      test_amounts.foldl (fun m x => max m (candidate_net_profit path pools x)) 0 := by
    simp only [analyze_triangular_profit]
    exact analyze_fold_fst path pools test_amounts (0, 1000)
  refine ⟨hfst, ?_, ?_⟩
  · rw [hfst]
    exact foldl_max_le_init _ _ 0
  · intro hall
    rcases analyze_fold_snd path pools test_amounts (0, 1000) with heq | ⟨x, hx, _, hlt⟩
    · constructor
      · simp only [analyze_triangular_profit, heq]
      · simp only [analyze_triangular_profit, heq]
    · exact absurd (lt_of_lt_of_le hlt (hall x hx)) (lt_irrefl 0)

/-- C10 witness: with no pools at all, every candidate loses money, so the
evaluator reports profit 0 at the default amount 1000. -/
theorem analyze_triangular_profit_nonneg_witness :
    (analyze_triangular_profit ["SOL", "RAY", "USDC", "SOL"] []).net_profit = 0 ∧
    (analyze_triangular_profit ["SOL", "RAY", "USDC", "SOL"] []).optimal_amount = 1000 :=
  (analyze_triangular_profit_nonneg ["SOL", "RAY", "USDC", "SOL"] []).2.2 (by
    intro x hx
    simp only [test_amounts, List.mem_cons, List.not_mem_nil, or_false] at hx
    have hsim : ∀ a : ℚ, simulate_hops [] ["SOL", "RAY", "USDC", "SOL"] a 0 = (0, 0) :=
      fun a => rfl
    rcases hx with rfl | rfl | rfl | rfl <;> norm_num [candidate_net_profit, hsim])

/-- C5 (amended): with a tradable pool at every hop, a candidate's net
profit is the final amount minus the initial amount minus one gas charge
per hop; a failing hop ends the candidate at final amount 0 with strictly
negative net profit (not zero); the kept amount attains the maximum
candidate profit whenever the best profit is positive (otherwise the
default 1000 is kept, see the C10 theorem); and re-evaluation of identical
inputs is deterministic. -/
theorem analyze_triangular_profit_spec (path : List String) (pools : List PoolInfo) :
    (∀ amount : ℚ, hops_tradable pools path →
      candidate_net_profit path pools amount =
        (simulate_hops pools path amount 0).1 - amount -
          ((path.length - 1 : ℕ) : ℚ) * gas_price_estimate) ∧
    (∀ amount : ℚ, 0 < amount → ¬ hops_tradable pools path →
      (simulate_hops pools path amount 0).1 = 0 ∧
        candidate_net_profit path pools amount < 0) ∧
    (0 < (analyze_triangular_profit path pools).net_profit →
      ∃ x ∈ test_amounts, (analyze_triangular_profit path pools).optimal_amount = x ∧
        candidate_net_profit path pools x = (analyze_triangular_profit path pools).net_profit ∧
        ∀ y ∈ test_amounts,
          candidate_net_profit path pools y ≤
            (analyze_triangular_profit path pools).net_profit) ∧
    analyze_triangular_profit path pools = analyze_triangular_profit path pools := by
  refine ⟨?_, ?_, ?_, rfl⟩
  · intro amount h
    simp only [candidate_net_profit]
    rw [simulate_hops_gas pools path amount 0 h, zero_add]
  · intro amount hpos h
    obtain ⟨h1, h2⟩ := simulate_hops_fail pools path amount 0 h
    refine ⟨h1, ?_⟩
    simp only [candidate_net_profit]
    rw [h1]
    linarith
  · intro hpos
    rcases analyze_fold_snd path pools test_amounts (0, 1000) with heq | ⟨x, hx, heq, _⟩
    · exfalso
      have hnet : (analyze_triangular_profit path pools).net_profit = 0 := by
        simp only [analyze_triangular_profit, heq]
      rw [hnet] at hpos
      exact lt_irrefl 0 hpos
    · refine ⟨x, hx, ?_, ?_, ?_⟩
      · simp only [analyze_triangular_profit, heq]
      · simp only [analyze_triangular_profit, heq]
      · intro y hy
        have hmax := analyze_fold_fst path pools test_amounts (0, 1000)
        have hy' := le_foldl_max (candidate_net_profit path pools) test_amounts 0 y hy
        simp only [analyze_triangular_profit]
        rw [hmax]
        exact hy'

/-- C5 witness: with no pools the first hop is untradable, so the 100-unit
candidate ends at final amount 0 with strictly negative net profit. -/
theorem analyze_triangular_profit_spec_witness :
    (simulate_hops [] ["SOL", "RAY", "USDC", "SOL"] 100 0).1 = 0 ∧
      candidate_net_profit ["SOL", "RAY", "USDC", "SOL"] [] 100 < 0 :=
  (analyze_triangular_profit_spec ["SOL", "RAY", "USDC", "SOL"] []).2.1 100 (by norm_num)
    (by simp [hops_tradable, find_best_pool])

/-- C5 counterexample: with no pools, the first hop of the triangular path
lacks a tradable pool, yet the 100-unit candidate's net profit is -100
rather than zero, and the kept default amount 1000 does not maximize the
candidate profits. -/
theorem analyze_triangular_profit_counterexample :
    find_best_pool "SOL" "RAY" ([] : List PoolInfo) = none ∧
    candidate_net_profit ["SOL", "RAY", "USDC", "SOL"] [] 100 = -100 ∧
    candidate_net_profit ["SOL", "RAY", "USDC", "SOL"] [] 100 ≠ 0 ∧
    (analyze_triangular_profit ["SOL", "RAY", "USDC", "SOL"] []).optimal_amount = 1000 ∧
    candidate_net_profit ["SOL", "RAY", "USDC", "SOL"] [] 1000 <
      candidate_net_profit ["SOL", "RAY", "USDC", "SOL"] [] 100 := by
  have hsim : ∀ a : ℚ, simulate_hops [] ["SOL", "RAY", "USDC", "SOL"] a 0 = (0, 0) :=
    fun a => rfl
  have hnet : ∀ a : ℚ, candidate_net_profit ["SOL", "RAY", "USDC", "SOL"] [] a = -a := by
    intro a
    simp [candidate_net_profit, hsim]
  refine ⟨rfl, ?_, ?_, ?_, ?_⟩
  · rw [hnet]
  · rw [hnet]
    norm_num
  · simp only [analyze_triangular_profit, test_amounts, List.foldl_cons, List.foldl_nil,
      analyze_step, hnet]
    norm_num
  · rw [hnet, hnet]
    norm_num

/-- A produced report entry carries its symbol, presupposes at least two
quotes, and records a percentage delta above the 0.1% threshold. -/
theorem price_diff_entry_some {symbol : String} {price_list : List PriceData} {e : DiffEntry}
    (h : price_diff_entry symbol price_list = some e) :
    e.symbol = symbol ∧ 2 ≤ price_list.length ∧ e.percentage = percentage_delta price_list ∧
      1 / 10 < percentage_delta price_list := by
  by_cases h2 : 2 ≤ price_list.length
  · by_cases hp : 1 / 10 < percentage_delta price_list
    · simp only [price_diff_entry, if_pos h2, if_pos hp] at h
      obtain rfl := Option.some.inj h
      exact ⟨rfl, h2, rfl, hp⟩
    · simp only [price_diff_entry, if_pos h2, if_neg hp] at h
      exact Option.noConfusion h
  · simp only [price_diff_entry, if_neg h2] at h
    exact Option.noConfusion h

/-- Identical prices across a symbol's quotes force a zero percentage
delta. -/
theorem percentage_delta_const {price_list : List PriceData}
    (h : ∀ q ∈ price_list, ∀ q' ∈ price_list, q.price = q'.price) :
    percentage_delta price_list = 0 := by
  rcases hs : sorted_by_price price_list with _ | ⟨a, t⟩
  · rw [percentage_delta, highest_quote, lowest_quote, hs]
    simp [List.getLastI]
  · have ha : a ∈ price_list := by
      have hmem : a ∈ sorted_by_price price_list := by
        rw [hs]
        exact List.mem_cons_self a t
      rw [sorted_by_price] at hmem
      exact List.mem_mergeSort.mp hmem
    rcases hlast : (a :: t).getLast? with _ | b
    · rw [List.getLast?_eq_none_iff] at hlast
      exact absurd hlast (List.cons_ne_nil a t)
    · have hb : b ∈ price_list := by
        have hmem : b ∈ sorted_by_price price_list := by
          rw [hs]
          exact List.mem_of_getLast?_eq_some hlast
        rw [sorted_by_price] at hmem
        exact List.mem_mergeSort.mp hmem
      rw [percentage_delta, highest_quote, lowest_quote, hs,
        List.getLastI_eq_getLast?, hlast]
      simp only [Option.iget_some, List.headI_cons]
      rw [h b hb a ha]
      simp

/-- C8: the price-difference report lists exactly the symbols with at
least two quotes and a percentage delta above 0.1%, sorted descending by
percentage; a symbol whose venues all report the same price never
appears.  The positivity hypothesis keeps the snapshot inside the domain
where the Python code (whose Decimal division raises on a zero lowest
price) and the rational model agree. -/
theorem get_price_differences_spec (all_prices : List (String × List PriceData))
    (hkeys : (all_prices.map Prod.fst).Nodup)
    (hpos : ∀ p ∈ all_prices, ∀ q ∈ p.2, 0 < q.price) :
    (∀ e ∈ get_price_differences all_prices,
      ∃ p ∈ all_prices, e.symbol = p.1 ∧ 2 ≤ p.2.length ∧
        e.percentage = percentage_delta p.2 ∧ 1 / 10 < percentage_delta p.2) ∧
    (∀ p ∈ all_prices, 2 ≤ p.2.length → 1 / 10 < percentage_delta p.2 →
      ∃ e ∈ get_price_differences all_prices, e.symbol = p.1) ∧
    (get_price_differences all_prices).Pairwise (fun a b => b.percentage ≤ a.percentage) ∧
    (∀ p ∈ all_prices, (∀ q ∈ p.2, ∀ q' ∈ p.2, q.price = q'.price) →
      ∀ e ∈ get_price_differences all_prices, e.symbol ≠ p.1) := by
  have hchar : ∀ e ∈ get_price_differences all_prices,
      ∃ p ∈ all_prices, e.symbol = p.1 ∧ 2 ≤ p.2.length ∧
        e.percentage = percentage_delta p.2 ∧ 1 / 10 < percentage_delta p.2 := by
    intro e he
    rw [get_price_differences] at he
    obtain ⟨p, hp, hentry⟩ := List.mem_filterMap.mp (List.mem_mergeSort.mp he)
    obtain ⟨hsym, h2, hpct, hthresh⟩ := price_diff_entry_some hentry
    exact ⟨p, hp, hsym, h2, hpct, hthresh⟩
  refine ⟨hchar, ?_, ?_, ?_⟩
  · intro p hp h2 hpct
    refine ⟨{ symbol := p.1
              lowest_price := (lowest_quote p.2).price
              highest_price := (highest_quote p.2).price
              difference := (highest_quote p.2).price - (lowest_quote p.2).price
              percentage := percentage_delta p.2
              buy_from := (lowest_quote p.2).source
              sell_to := (highest_quote p.2).source
              liquidity := min (lowest_quote p.2).liquidity (highest_quote p.2).liquidity },
      ?_, rfl⟩
    rw [get_price_differences]
    apply List.mem_mergeSort.mpr
    apply List.mem_filterMap.mpr
    refine ⟨p, hp, ?_⟩
    simp only [price_diff_entry, if_pos h2, if_pos hpct]
  · have hsorted := @List.sorted_mergeSort DiffEntry
      (fun a b : DiffEntry => decide (b.percentage ≤ a.percentage))
      (fun a b c hab hbc => by
        simp only [decide_eq_true_eq] at *
        exact le_trans hbc hab)
      (fun a b => by
        simp only [Bool.or_eq_true, decide_eq_true_eq]
        exact le_total b.percentage a.percentage)
      (all_prices.filterMap (fun p => price_diff_entry p.1 p.2))
    exact hsorted.imp (fun h => of_decide_eq_true h)
  · intro p hp hconst e he hsym
    obtain ⟨p', hp', hsym', -, -, hthresh'⟩ := hchar e he
    have hpp : p' = p := List.inj_on_of_nodup_map hkeys hp' hp (by rw [← hsym', hsym])
    rw [hpp] at hthresh'
    rw [percentage_delta_const hconst] at hthresh'
    exact absurd hthresh' (by norm_num)

/-- Snapshot with one symbol quoted at 80 and 100 by two venues, used by
the C8 witness. -/
def sample_snapshot : List (String × List PriceData) :=
  [("SOL/USDC", [⟨"SOL/USDC", 100, 0, 5000000, "Raydium"⟩, ⟨"SOL/USDC", 80, 0, 8000000, "Orca"⟩])]

/-- C8 witness: the report over the sample snapshot is sorted descending
by percentage. -/
theorem get_price_differences_spec_witness :
    (get_price_differences sample_snapshot).Pairwise (fun a b => b.percentage ≤ a.percentage) :=
  (get_price_differences_spec sample_snapshot (by decide) (by decide)).2.2.1

end SolanaArb
